import Mathlib

/-!
A verification development for the kodegen-claude-agent session orchestrator.

The definitions below are shallow embeddings of the Rust source:

* `paginate_messages`, `calculate_has_more`  — src/manager/agent_manager.rs
* `bufferPush`, `collectorStep`, `collectorRun` — src/manager/background.rs
  (`spawn_message_collector`'s select loop, with the command channel and the
  client message stream serialized into one event list)
* `AgentManager.send_message`, `AgentManager.terminate_session`,
  `AgentManager.get_output` — src/manager/agent_manager.rs
* `AgentRegistry.cleanup_connection` — src/registry.rs
* `readerLoop` — src/transport/subprocess/reader.rs (`read_messages_impl`)
* `buildProcessEnv` — src/transport/subprocess/lifecycle.rs (`connect_impl`
  environment construction) with `DANGEROUS_ENV_VARS` from
  src/transport/subprocess/config.rs
* `connect_impl`, `connectRun` — src/transport/subprocess/lifecycle.rs

Wall-clock / monotonic timestamps (`Instant::now`, `Utc::now`) and the
`last_activity` "working" window are not modeled: no claim below depends on
them.  `HashMap`s are modeled as association lists with unique keys (the
uniqueness hypothesis appears where a theorem needs it).  External JSON
parsing (`serde_json::from_str`) is a parameter of the reader loop.
-/

/-- Error kinds surfaced by the manager (src/error.rs, the kinds the modeled
operations can produce). -/
inductive ClaudeError where
  | sessionNotFound (id : String)
  | sessionComplete (id : String)
deriving DecidableEq, Repr

/-- Inbound message variants (src/types/messages.rs `Message`); each variant
keeps the fields the manager inspects, with remaining payload as opaque
strings.  `total_cost_usd : Option<f64>` and `usage` are omitted (never read
by the modeled code). -/
inductive Message where
  | user (content : String)
  | assistant (content : String)
  | system (subtype : String)
  | result (subtype : String) (durationMs : Nat) (isError : Bool) (numTurns : Nat)
  | streamEvent (uuid : String)
deriving DecidableEq, Repr

/-- Buffer element (src/types/agent.rs `SerializedMessage`).  `content` keeps
the original message in place of its JSON serialization; the wall-clock
`timestamp` is omitted. -/
structure SerializedMessage where
  messageType : String
  content : Message
  turn : Nat
deriving DecidableEq, Repr

/-- src/manager/helpers.rs `serialize_message`. -/
def serializeMessage (msg : Message) : SerializedMessage :=
  match msg with
  | .user _ => { messageType := "user", content := msg, turn := 0 }
  | .assistant _ => { messageType := "assistant", content := msg, turn := 0 }
  | .system subtype => { messageType := "system_" ++ subtype, content := msg, turn := 0 }
  | .result _ _ _ numTurns => { messageType := "result", content := msg, turn := numTurns }
  | .streamEvent _ => { messageType := "stream_event", content := msg, turn := 0 }

/-- src/manager/background.rs `BUFFER_SIZE`: circular buffer capacity. -/
def BUFFER_SIZE : Nat := 1000

/-- The circular-buffer insertion inlined in `spawn_message_collector`
(src/manager/background.rs lines 77-84): pop the front when the buffer is at
capacity, then push at the back. -/
def bufferPush (messages : List SerializedMessage) (m : SerializedMessage) :
    List SerializedMessage :=
  let messages := if messages.length = BUFFER_SIZE then messages.tail else messages
  messages ++ [m]

/-- src/manager/commands.rs `SessionCommand` (the one-shot reply channels are
represented by the returned values of the operations that consume them). -/
inductive SessionCommand where
  | sendMessage (prompt : String)
  | shutdown
deriving DecidableEq, Repr

/-- The mutable state shared between the collector task and the manager
(the `Arc<Mutex<_>>` cells of src/manager/background.rs `CollectorContext`). -/
structure CollectorState where
  messages : List SerializedMessage
  turnCount : Nat
  isComplete : Bool
deriving DecidableEq, Repr

/-- One arrival in `spawn_message_collector`'s select loop: either a command
from the channel, a message from the client, or a stream error. -/
inductive CollectorEvent where
  | command (cmd : SessionCommand)
  | msgOk (msg : Message)
  | msgErr
deriving DecidableEq, Repr

/-- One iteration of the select loop in `spawn_message_collector`
(src/manager/background.rs lines 51-107).  Returns the updated shared state
and whether the loop breaks. -/
def collectorStep (maxTurns : Nat) (s : CollectorState) :
    CollectorEvent → CollectorState × Bool
  | .command (.sendMessage _) => (s, false)
  | .command .shutdown => (s, true)
  | .msgOk msg =>
      let s := { s with messages := bufferPush s.messages (serializeMessage msg) }
      match msg with
      | .result _ _ _ numTurns =>
          let s := { s with turnCount := numTurns }
          if numTurns ≥ maxTurns then ({ s with isComplete := true }, true)
          else (s, false)
      | _ => (s, false)
  | .msgErr => ({ s with isComplete := true }, true)

/-- Run the collector loop over a sequence of arrivals, stopping at the first
break. -/
def collectorRun (maxTurns : Nat) (s : CollectorState) :
    List CollectorEvent → CollectorState
  | [] => s
  | ev :: evs =>
      let r := collectorStep maxTurns s ev
      if r.2 then r.1 else collectorRun maxTurns r.1 evs

/-- The sequence of `turn_count` values an observer reads after each loop
iteration (one read per processed event, stopping when the loop breaks). -/
def collectorTurnTrace (maxTurns : Nat) (s : CollectorState) :
    List CollectorEvent → List Nat
  | [] => []
  | ev :: evs =>
      let r := collectorStep maxTurns s ev
      r.1.turnCount :: (if r.2 then [] else collectorTurnTrace maxTurns r.1 evs)

/-- The `num_turns` values of the Result messages in an event sequence. -/
def resultTurns (evs : List CollectorEvent) : List Nat :=
  evs.filterMap fun ev =>
    match ev with
    | .msgOk (.result _ _ _ numTurns) => some numTurns
    | _ => none

-- ===========================================================================
-- Association-list maps (model of std HashMap: unique keys)
-- ===========================================================================

/-- `HashMap::get` on an association list. -/
def mapLookup {κ α : Type} [DecidableEq κ] (m : List (κ × α)) (k : κ) : Option α :=
  (m.find? fun kv => kv.1 = k).map Prod.snd

/-- `HashMap::remove` on an association list: the removed value (if any) and
the remaining map. -/
def mapRemove {κ α : Type} [DecidableEq κ] (m : List (κ × α)) (k : κ) :
    Option α × List (κ × α) :=
  (mapLookup m k, m.filter fun kv => kv.1 ≠ k)

/-- `HashMap::insert` on an association list (replaces any existing entry). -/
def mapInsert {κ α : Type} [DecidableEq κ] (m : List (κ × α)) (k : κ) (v : α) :
    List (κ × α) :=
  (k, v) :: m.filter fun kv => kv.1 ≠ k

-- ===========================================================================
-- Agent manager (src/manager/agent_manager.rs)
-- ===========================================================================

/-- Active session record (src/manager/session.rs `AgentSessionInfo`); the
shared `Arc` cells are inlined, `command_tx`, `created_at` and
`last_message_at` are omitted (channel / clock). -/
structure AgentSessionInfo where
  label : String
  messages : List SerializedMessage
  turnCount : Nat
  maxTurns : Nat
  isComplete : Bool
deriving DecidableEq, Repr

/-- Completed session record (src/manager/session.rs `CompletedAgentSession`);
`runtime_ms` and `completed_at` are omitted (clock). -/
structure CompletedAgentSession where
  label : String
  messages : List SerializedMessage
  finalTurnCount : Nat
deriving DecidableEq, Repr

/-- The manager's two pools (src/manager/agent_manager.rs `AgentManager`). -/
structure ManagerState where
  activeSessions : List (String × AgentSessionInfo)
  completedSessions : List (String × CompletedAgentSession)
deriving DecidableEq, Repr

/-- src/manager/agent_manager.rs `paginate_messages` (lines 564-584). -/
def paginate_messages (messages : List SerializedMessage) (offset : Int)
    (length : Nat) : List SerializedMessage :=
  if offset ≥ 0 then
    let start := offset.toNat
    (messages.drop start).take length
  else
    let tailCount := (-offset).toNat
    ((messages.reverse.take tailCount).reverse)

/-- src/manager/agent_manager.rs `calculate_has_more` (lines 587-593). -/
def calculate_has_more (offset : Int) (messagesReturned totalMessages : Nat) :
    Bool :=
  if offset ≥ 0 then offset.toNat + messagesReturned < totalMessages
  else false

/-- Response of `get_output` (src/types/agent.rs `GetOutputResponse`); the
clock-derived `working` field is omitted. -/
structure GetOutputResponse where
  sessionId : String
  output : List SerializedMessage
  totalMessages : Nat
  messagesReturned : Nat
  isComplete : Bool
  turnCount : Nat
  maxTurns : Nat
  hasMore : Bool
deriving DecidableEq, Repr

/-- src/manager/agent_manager.rs `AgentManager::get_output` (lines 307-372):
look in the active pool first, then the completed pool; paginate.  The
returned `ManagerState` is the state after the call — the method only reads,
so it is the input state. -/
def AgentManager.get_output (st : ManagerState) (sessionId : String)
    (offset : Int) (length : Nat) :
    Except ClaudeError GetOutputResponse × ManagerState :=
  match mapLookup st.activeSessions sessionId with
  | some session =>
      let output := paginate_messages session.messages offset length
      let totalMessages := session.messages.length
      let messagesReturned := output.length
      let hasMore := calculate_has_more offset messagesReturned totalMessages
      (.ok { sessionId := sessionId, output := output,
             totalMessages := totalMessages, messagesReturned := messagesReturned,
             isComplete := session.isComplete, turnCount := session.turnCount,
             maxTurns := session.maxTurns, hasMore := hasMore }, st)
  | none =>
      match mapLookup st.completedSessions sessionId with
      | some session =>
          let output := paginate_messages session.messages offset length
          let totalMessages := session.messages.length
          let messagesReturned := output.length
          let hasMore := calculate_has_more offset messagesReturned totalMessages
          (.ok { sessionId := sessionId, output := output,
                 totalMessages := totalMessages, messagesReturned := messagesReturned,
                 isComplete := true, turnCount := session.finalTurnCount,
                 maxTurns := 0, hasMore := hasMore }, st)
      | none => (.error (.sessionNotFound sessionId), st)

/-- src/manager/agent_manager.rs `AgentManager::send_message` (lines 397-427):
reject when not found, complete, or at `max_turns`; otherwise post a
`SendMessage` command.  The second component is the list of commands posted to
the session's channel by this call. -/
def AgentManager.send_message (st : ManagerState) (sessionId : String)
    (prompt : String) : Except ClaudeError Unit × List SessionCommand :=
  match mapLookup st.activeSessions sessionId with
  | none => (.error (.sessionNotFound sessionId), [])
  | some session =>
      if session.isComplete then (.error (.sessionComplete sessionId), [])
      else if session.turnCount ≥ session.maxTurns then
        (.error (.sessionComplete sessionId), [])
      else (.ok (), [SessionCommand.sendMessage prompt])

/-- Response of `terminate_session` (src/types/agent.rs `TerminateResponse`);
`runtime_ms` omitted (clock). -/
structure TerminateResponse where
  sessionId : String
  success : Bool
  finalTurnCount : Nat
  totalMessages : Nat
deriving DecidableEq, Repr

/-- src/manager/agent_manager.rs `AgentManager::terminate_session`
(lines 433-473): remove from the active pool (error if absent), post
Shutdown, snapshot, insert into the completed pool. -/
def AgentManager.terminate_session (st : ManagerState) (sessionId : String) :
    Except ClaudeError TerminateResponse × ManagerState :=
  match mapRemove st.activeSessions sessionId with
  | (none, _) => (.error (.sessionNotFound sessionId), st)
  | (some session, active2) =>
      let completed : CompletedAgentSession :=
        { label := session.label, messages := session.messages,
          finalTurnCount := session.turnCount }
      (.ok { sessionId := sessionId, success := true,
             finalTurnCount := session.turnCount,
             totalMessages := session.messages.length },
       { activeSessions := active2,
         completedSessions := mapInsert st.completedSessions sessionId completed })

/-- Delivery of one collector-loop arrival for a session, acting on the shared
cells as stored in the active pool (the collector and the pool record share
the same `Arc` cells); a session absent from the active pool has no cells to
update here. -/
def applyCollectorEvent (st : ManagerState) (sessionId : String)
    (ev : CollectorEvent) : ManagerState :=
  match mapLookup st.activeSessions sessionId with
  | none => st
  | some session =>
      let cs : CollectorState :=
        { messages := session.messages, turnCount := session.turnCount,
          isComplete := session.isComplete }
      let r := collectorStep session.maxTurns cs ev
      { st with
        activeSessions := mapInsert st.activeSessions sessionId
          { session with messages := r.1.messages, turnCount := r.1.turnCount,
                         isComplete := r.1.isComplete } }

-- ===========================================================================
-- Connection registry (src/registry.rs)
-- ===========================================================================

/-- Keys of the registry map: `(connection_id, agent_id)` (src/registry.rs
`AgentMap`). -/
abbrev AgentMap := List ((String × Nat) × String)

/-- The body of the removal loop of `cleanup_connection` (src/registry.rs
lines 94-111): remove the key; when a session id was registered there,
attempt `manager.terminate_session` (its error, if any, is logged and
otherwise ignored) and record the attempt. -/
def cleanupStep (acc : AgentMap × ManagerState × List String)
    (key : String × Nat) : AgentMap × ManagerState × List String :=
  match mapRemove acc.1 key with
  | (some sessionId, agents2) =>
      let r := AgentManager.terminate_session acc.2.1 sessionId
      (agents2, r.2, acc.2.2 ++ [sessionId])
  | (none, agents2) => (agents2, acc.2.1, acc.2.2)

/-- src/registry.rs `AgentRegistry::cleanup_connection` (lines 85-113):
collect every key of the connection, then remove each and call
`manager.terminate_session` on its session id, ignoring termination errors.
Returns the registry map, the manager state, the list of session ids for
which termination was attempted (in sweep order), and the returned count. -/
def AgentRegistry.cleanup_connection (agents : AgentMap) (mgr : ManagerState)
    (connectionId : String) : AgentMap × ManagerState × List String × Nat :=
  let toRemove := (agents.map Prod.fst).filter fun k => k.1 = connectionId
  let count := toRemove.length
  let swept := toRemove.foldl cleanupStep (agents, mgr, [])
  (swept.1, swept.2.1, swept.2.2, count)

-- ===========================================================================
-- Wire codec reader (src/transport/subprocess/reader.rs)
-- ===========================================================================

/-- src/transport/subprocess/config.rs `DEFAULT_MAX_BUFFER_SIZE`. -/
def DEFAULT_MAX_BUFFER_SIZE : Nat := 1024 * 1024

/-- One completed read attempt of `read_line` inside `read_messages_impl`:
a line (its bytes as a string), EOF, an I/O error, or the 30-second timeout
elapsing. -/
inductive ReadEvent where
  | line (s : String)
  | eof
  | ioErr
  | timeoutEv
deriving DecidableEq, Repr

/-- What `read_messages_impl` sends on the message channel, for a parsed-value
type `J`. -/
inductive ReaderOutput (J : Type) where
  | ok (v : J)
  | jsonDecodeErr
  | ioError
  | timeoutErr
deriving DecidableEq, Repr

/-- Rust's `str::trim`: the string with leading and trailing whitespace
removed (restricted to ASCII whitespace here; the full Unicode White_Space
set makes no difference to any claim). -/
def rustTrim (s : String) : String :=
  ⟨((s.data.dropWhile Char.isWhitespace).reverse.dropWhile
      Char.isWhitespace).reverse⟩

/-- The read loop of src/transport/subprocess/reader.rs `read_messages_impl`
(lines 38-91), over a sequence of read results.  `tryParse` stands for
`serde_json::from_str` (an external library call); `jsonBuffer` is the frame
accumulator; `String.utf8ByteSize` models Rust's byte-length `len()`.  The
post-loop child-exit-status check (lines 94-113) is outside the loop and not
modeled. -/
def readerLoop {J : Type} (tryParse : String → Option J) (maxBufferSize : Nat)
    (jsonBuffer : String) : List ReadEvent → List (ReaderOutput J)
  | [] => []
  | ev :: evs =>
      match ev with
      | .eof => []
      | .line s =>
          let line := rustTrim s
          if line.isEmpty then readerLoop tryParse maxBufferSize jsonBuffer evs
          else
            let jsonBuffer := jsonBuffer ++ line
            if jsonBuffer.utf8ByteSize > maxBufferSize then
              .jsonDecodeErr :: readerLoop tryParse maxBufferSize "" evs
            else
              match tryParse jsonBuffer with
              | some data => .ok data :: readerLoop tryParse maxBufferSize "" evs
              | none => readerLoop tryParse maxBufferSize jsonBuffer evs
      | .ioErr => [.ioError]
      | .timeoutEv => [.timeoutErr]

-- ===========================================================================
-- Subprocess environment sanitization (src/transport/subprocess/lifecycle.rs)
-- ===========================================================================

/-- src/transport/subprocess/config.rs `DANGEROUS_ENV_VARS`. -/
def DANGEROUS_ENV_VARS : List String :=
  ["LD_PRELOAD", "LD_LIBRARY_PATH", "DYLD_INSERT_LIBRARIES",
   "DYLD_LIBRARY_PATH", "PATH", "NODE_OPTIONS", "PYTHONPATH", "PERL5LIB",
   "RUBYLIB"]

/-- `HashMap::insert` on an environment modeled as a partial map. -/
def envInsert (env : String → Option String) (k v : String) :
    String → Option String :=
  fun x => if x = k then some v else env x

/-- The child-environment construction of `connect_impl`
(src/transport/subprocess/lifecycle.rs lines 30-48): copy the parent
environment, add each user-supplied variable unless its name is in
`DANGEROUS_ENV_VARS`, insert the two identity variables, and set `PWD` when a
working directory is configured.  `version` stands for the compile-time
`VERSION` (`CARGO_PKG_VERSION`). -/
def buildProcessEnv (parentEnv : String → Option String)
    (userEnv : List (String × String)) (version : String)
    (cwd : Option String) : String → Option String :=
  let processEnv := parentEnv
  let processEnv := userEnv.foldl
    (fun env kv =>
      if DANGEROUS_ENV_VARS.contains kv.1 then env
      else envInsert env kv.1 kv.2)
    processEnv
  let processEnv := envInsert processEnv "CLAUDE_CODE_ENTRYPOINT" "sdk-rust"
  let processEnv := envInsert processEnv "CLAUDE_AGENT_SDK_VERSION" version
  match cwd with
  | some c => envInsert processEnv "PWD" c
  | none => processEnv

-- ===========================================================================
-- Transport connect idempotence (src/transport/subprocess/lifecycle.rs)
-- ===========================================================================

/-- The connect-relevant part of `SubprocessTransport`'s state:
whether `self.process` holds a child handle and the `ready` flag. -/
structure TransportState where
  processHeld : Bool
  ready : Bool
deriving DecidableEq, Repr

/-- src/transport/subprocess/lifecycle.rs `connect_impl` (lines 22-124):
return `Ok` at once when a process is already held; otherwise attempt the
spawn (`spawnOk` stands for the outcome of `cmd.spawn()`).  The `Nat`
component counts child processes spawned by this call. -/
def connect_impl (spawnOk : Bool) (st : TransportState) :
    Except Unit Unit × TransportState × Nat :=
  if st.processHeld then (.ok (), st, 0)
  else if spawnOk then (.ok (), { processHeld := true, ready := true }, 1)
  else (.error (), st, 0)

/-- A sequence of `connect` calls (each with its own spawn outcome),
accumulating the number of children spawned. -/
def connectRun (st : TransportState) : List Bool → TransportState × Nat
  | [] => (st, 0)
  | b :: bs =>
      let r := connect_impl b st
      let rest := connectRun r.2.1 bs
      (rest.1, r.2.2 + rest.2)

-- ===========================================================================
-- Helper lemmas
-- ===========================================================================

theorem mapLookup_filter_ne {κ α : Type} [DecidableEq κ]
    (m : List (κ × α)) (x k : κ) (h : x ≠ k) :
    mapLookup (m.filter fun kv => kv.1 ≠ k) x = mapLookup m x := by
  induction m with
  | nil => rfl
  | cons kv m ih =>
      by_cases hk : kv.1 = k
      · have hx : ¬ kv.1 = x := fun hc => h (hc.symm.trans hk)
        rw [List.filter_cons_of_neg (by simp [hk])]
        rw [ih]
        unfold mapLookup
        rw [List.find?_cons_of_neg _ (by simp [hx])]
      · rw [List.filter_cons_of_pos (by simp [hk])]
        by_cases hx : kv.1 = x
        · unfold mapLookup
          rw [List.find?_cons_of_pos _ (by simp [hx]),
              List.find?_cons_of_pos _ (by simp [hx])]
        · unfold mapLookup
          rw [List.find?_cons_of_neg _ (by simp [hx]),
              List.find?_cons_of_neg _ (by simp [hx])]
          exact ih

theorem mapLookup_self_none {κ α : Type} [DecidableEq κ]
    (m : List (κ × α)) (k : κ) :
    mapLookup (m.filter fun kv => kv.1 ≠ k) k = none := by
  induction m with
  | nil => rfl
  | cons kv m ih =>
      by_cases hk : kv.1 = k
      · rw [List.filter_cons_of_neg (by simp [hk])]
        exact ih
      · rw [List.filter_cons_of_pos (by simp [hk])]
        unfold mapLookup
        rw [List.find?_cons_of_neg _ (by simp [hk])]
        exact ih

theorem mapLookup_insert_self {κ α : Type} [DecidableEq κ]
    (m : List (κ × α)) (k : κ) (v : α) :
    mapLookup (mapInsert m k v) k = some v := by
  unfold mapInsert mapLookup
  rw [List.find?_cons_of_pos _ (by simp)]
  rfl

theorem mapLookup_insert_ne {κ α : Type} [DecidableEq κ]
    (m : List (κ × α)) (k x : κ) (v : α) (h : x ≠ k) :
    mapLookup (mapInsert m k v) x = mapLookup m x := by
  unfold mapInsert
  have step : mapLookup ((k, v) :: m.filter fun kv => kv.1 ≠ k) x
      = mapLookup (m.filter fun kv => kv.1 ≠ k) x := by
    unfold mapLookup
    rw [List.find?_cons_of_neg _ (by simp; exact fun hc : k = x => h hc.symm)]
  rw [step, mapLookup_filter_ne m x k h]

-- ===========================================================================
-- C3: pagination
-- ===========================================================================

/-- C3.  `paginate_messages` with `offset ≥ 0` returns
`min length (N - offset)` entries, the entries at positions
`offset, offset+1, …` in insertion order, and `calculate_has_more` reports
exactly `offset + returned < N`; with `offset < 0` it returns the suffix of
the last `|offset|` entries in insertion order, ignores `length`, and
`calculate_has_more` reports `false`. -/
theorem pagination_spec (msgs : List SerializedMessage) (offset : Int)
    (length : Nat) :
    (offset ≥ 0 →
      (paginate_messages msgs offset length).length
          = min length (msgs.length - offset.toNat)
      ∧ (∀ i : Nat, (paginate_messages msgs offset length)[i]?
          = if i < length then msgs[offset.toNat + i]? else none)
      ∧ (∀ r : Nat, calculate_has_more offset r msgs.length
          = decide (offset.toNat + r < msgs.length)))
    ∧ (offset < 0 →
      paginate_messages msgs offset length
          = msgs.drop (msgs.length - (-offset).toNat)
      ∧ (∀ length2 : Nat, paginate_messages msgs offset length2
          = paginate_messages msgs offset length)
      ∧ (∀ r : Nat, calculate_has_more offset r msgs.length = false)) := by
  constructor
  · intro hoff
    refine ⟨?_, ?_, ?_⟩
    · simp [paginate_messages, hoff]
    · intro i
      simp only [paginate_messages, hoff, if_true, List.getElem?_take,
        List.getElem?_drop]
    · intro r
      simp [calculate_has_more, hoff]
  · intro hoff
    have hoff' : ¬ (offset ≥ 0) := by omega
    refine ⟨?_, ?_, ?_⟩
    · simp only [paginate_messages, hoff', if_false]
      rw [List.take_reverse, List.reverse_reverse]
    · intro length2
      simp [paginate_messages, hoff']
    · intro r
      simp [calculate_has_more, hoff']

/-- Witness for `pagination_spec` at a concrete buffer of three messages. -/
theorem pagination_spec_witness :
    ((paginate_messages
        [serializeMessage (.user "a"), serializeMessage (.user "b"),
         serializeMessage (.user "c")] 1 5).length = min 5 (3 - 1))
    ∧ (paginate_messages
        [serializeMessage (.user "a"), serializeMessage (.user "b"),
         serializeMessage (.user "c")] (-2) 0
        = [serializeMessage (.user "a"), serializeMessage (.user "b"),
           serializeMessage (.user "c")].drop (3 - 2)) := by
  have h1 := (pagination_spec
    [serializeMessage (.user "a"), serializeMessage (.user "b"),
     serializeMessage (.user "c")] 1 5).1 (by decide)
  have h2 := (pagination_spec
    [serializeMessage (.user "a"), serializeMessage (.user "b"),
     serializeMessage (.user "c")] (-2) 0).2 (by decide)
  exact ⟨h1.1, h2.1⟩

-- ===========================================================================
-- C8: wire codec overflow vs timeout
-- ===========================================================================

/-- C8.  When a read makes the frame accumulator exceed `maxBufferSize`, the
reader surfaces a JSON-decode error, clears the accumulator, and keeps
reading — a subsequent valid frame is still delivered; a read timeout instead
closes the stream with a single timeout error; and the default cap is
1 MiB = 1048576 bytes. -/
theorem reader_overflow_recovers_timeout_closes {J : Type}
    (tryParse : String → Option J) (maxBufferSize : Nat) (buf : String)
    (s : String) (evs : List ReadEvent)
    (hne : (rustTrim s).isEmpty = false)
    (hover : (buf ++ rustTrim s).utf8ByteSize > maxBufferSize) :
    readerLoop tryParse maxBufferSize buf (.line s :: evs)
        = .jsonDecodeErr :: readerLoop tryParse maxBufferSize "" evs
    ∧ (∀ (s2 : String) (v : J) (evs2 : List ReadEvent),
        (rustTrim s2).isEmpty = false →
        (rustTrim s2).utf8ByteSize ≤ maxBufferSize →
        tryParse (rustTrim s2) = some v →
        readerLoop tryParse maxBufferSize "" (.line s2 :: evs2)
            = .ok v :: readerLoop tryParse maxBufferSize "" evs2)
    ∧ (∀ (buf2 : String) (evs2 : List ReadEvent),
        readerLoop tryParse maxBufferSize buf2 (.timeoutEv :: evs2)
            = [.timeoutErr])
    ∧ DEFAULT_MAX_BUFFER_SIZE = 1048576 := by
  refine ⟨?_, ?_, ?_, rfl⟩
  · simp [readerLoop, hne, hover]
  · intro s2 v evs2 hne2 hfit2 hparse2
    have hfit2' : ¬ (maxBufferSize < (rustTrim s2).utf8ByteSize) := by omega
    simp [readerLoop, hne2, hfit2', hparse2]
  · intro buf2 evs2
    simp [readerLoop]

/-- Witness for `reader_overflow_recovers_timeout_closes`: with a 3-byte cap,
the line `abcd` overflows and is rejected, then the line `ok` still parses. -/
theorem reader_overflow_witness :
    readerLoop (fun t => if t = "ok" then some 7 else none) 3 "" (.line "abcd" :: [.line "ok"])
        = .jsonDecodeErr :: readerLoop (fun t => if t = "ok" then some 7 else none) 3 "" [.line "ok"]
    ∧ readerLoop (fun t => if t = "ok" then some 7 else none) 3 "" (.line "ok" :: [])
        = .ok 7 :: readerLoop (fun t => if t = "ok" then some 7 else none) 3 "" []
    ∧ readerLoop (fun t => if t = "ok" then some 7 else none) 3 "x" [.timeoutEv]
        = [.timeoutErr] := by
  have h := reader_overflow_recovers_timeout_closes
    (fun t => if t = "ok" then some 7 else none) 3 "" "abcd" [.line "ok"]
    (by decide) (by decide)
  exact ⟨h.1, h.2.1 "ok" 7 [] (by decide) (by decide) (by decide),
    h.2.2.1 "x" [.timeoutEv].tail⟩

-- ===========================================================================
-- C9: environment sanitization
-- ===========================================================================

/-- The user-override fold inside `buildProcessEnv` leaves a variable that is
on the denylist untouched. -/
theorem buildEnv_foldl_dangerous (userEnv : List (String × String))
    (env : String → Option String) (k : String)
    (hd : k ∈ DANGEROUS_ENV_VARS) :
    (userEnv.foldl
      (fun env kv =>
        if DANGEROUS_ENV_VARS.contains kv.1 then env
        else envInsert env kv.1 kv.2) env) k = env k := by
  induction userEnv generalizing env with
  | nil => rfl
  | cons kv userEnv ih =>
      rw [List.foldl_cons]
      cases hdkv : DANGEROUS_ENV_VARS.contains kv.1
      · have hk1 : k ≠ kv.1 := fun hc => by
          have hcon : DANGEROUS_ENV_VARS.contains kv.1 = true :=
            List.elem_eq_true_of_mem (hc ▸ hd)
          rw [hcon] at hdkv
          exact absurd hdkv (by simp)
        rw [if_neg (by simp)]
        rw [ih (envInsert env kv.1 kv.2)]
        simp [envInsert, hk1]
      · rw [if_pos rfl]
        exact ih env

/-- The user-override fold leaves a variable with no override untouched. -/
theorem buildEnv_foldl_not_mem (userEnv : List (String × String))
    (env : String → Option String) (k : String)
    (hk : k ∉ userEnv.map Prod.fst) :
    (userEnv.foldl
      (fun env kv =>
        if DANGEROUS_ENV_VARS.contains kv.1 then env
        else envInsert env kv.1 kv.2) env) k = env k := by
  induction userEnv generalizing env with
  | nil => rfl
  | cons kv userEnv ih =>
      simp only [List.map_cons, List.mem_cons, not_or] at hk
      rw [List.foldl_cons]
      cases hdkv : DANGEROUS_ENV_VARS.contains kv.1
      · rw [if_neg (by simp)]
        rw [ih (envInsert env kv.1 kv.2) hk.2]
        simp [envInsert, hk.1]
      · rw [if_pos rfl]
        exact ih env hk.2

/-- The user-override fold applies an override that is not on the denylist. -/
theorem buildEnv_foldl_mem (userEnv : List (String × String))
    (env : String → Option String) (k v : String)
    (hN : (userEnv.map Prod.fst).Nodup) (hmem : (k, v) ∈ userEnv)
    (hd : k ∉ DANGEROUS_ENV_VARS) :
    (userEnv.foldl
      (fun env kv =>
        if DANGEROUS_ENV_VARS.contains kv.1 then env
        else envInsert env kv.1 kv.2) env) k = some v := by
  induction userEnv generalizing env with
  | nil => cases hmem
  | cons kv userEnv ih =>
      simp only [List.map_cons, List.nodup_cons] at hN
      rcases List.mem_cons.mp hmem with hhead | htail
      · have hdkv : ¬ (DANGEROUS_ENV_VARS.contains kv.1 = true) := by
          rw [← hhead]
          exact fun hc => hd (List.mem_of_elem_eq_true hc)
        have hrest : k ∉ userEnv.map Prod.fst := by
          rw [← hhead] at hN
          exact hN.1
        have henv : envInsert env kv.1 kv.2 k = some v := by
          rw [← hhead]
          simp [envInsert]
        rw [List.foldl_cons, if_neg hdkv,
          buildEnv_foldl_not_mem userEnv _ k hrest, henv]
      · rw [List.foldl_cons]
        cases hdkv : DANGEROUS_ENV_VARS.contains kv.1
        · rw [if_neg (by simp)]
          exact ih (envInsert env kv.1 kv.2) hN.2 htail
        · rw [if_pos rfl]
          exact ih env hN.2 htail

/-- C9.  The spawned child environment (with no working-directory override)
is the parent environment, plus the user overrides not on the denylist, with
denylisted overrides ignored (system values preserved), plus the two injected
identity variables. -/
theorem env_sanitization (parentEnv : String → Option String)
    (userEnv : List (String × String)) (version : String)
    (hN : (userEnv.map Prod.fst).Nodup) :
    buildProcessEnv parentEnv userEnv version none "CLAUDE_CODE_ENTRYPOINT"
        = some "sdk-rust"
    ∧ buildProcessEnv parentEnv userEnv version none "CLAUDE_AGENT_SDK_VERSION"
        = some version
    ∧ ∀ k, k ≠ "CLAUDE_CODE_ENTRYPOINT" → k ≠ "CLAUDE_AGENT_SDK_VERSION" →
        ((k ∈ DANGEROUS_ENV_VARS ∨ k ∉ userEnv.map Prod.fst) →
          buildProcessEnv parentEnv userEnv version none k = parentEnv k)
        ∧ (∀ v, (k, v) ∈ userEnv → k ∉ DANGEROUS_ENV_VARS →
          buildProcessEnv parentEnv userEnv version none k = some v) := by
  refine ⟨?_, ?_, ?_⟩
  · simp [buildProcessEnv, envInsert]
  · simp [buildProcessEnv, envInsert]
  · intro k hk1 hk2
    constructor
    · intro hcase
      rcases hcase with hd | hnm
      · simp only [buildProcessEnv, envInsert, if_neg hk2, if_neg hk1]
        exact buildEnv_foldl_dangerous userEnv parentEnv k hd
      · simp only [buildProcessEnv, envInsert, if_neg hk2, if_neg hk1]
        exact buildEnv_foldl_not_mem userEnv parentEnv k hnm
    · intro v hmem hd
      simp only [buildProcessEnv, envInsert, if_neg hk2, if_neg hk1]
      exact buildEnv_foldl_mem userEnv parentEnv k v hN hmem hd

/-- Witness for `env_sanitization`: the override set
`{LD_PRELOAD ↦ /tmp/x, FOO ↦ bar}` leaves the system `LD_PRELOAD` in place,
applies `FOO=bar`, and both identity variables are present. -/
theorem env_sanitization_witness :
    buildProcessEnv
        (fun k => if k = "LD_PRELOAD" then some "sys" else none)
        [("LD_PRELOAD", "/tmp/x"), ("FOO", "bar")] "0.1.0" none "LD_PRELOAD"
      = some "sys"
    ∧ buildProcessEnv
        (fun k => if k = "LD_PRELOAD" then some "sys" else none)
        [("LD_PRELOAD", "/tmp/x"), ("FOO", "bar")] "0.1.0" none "FOO"
      = some "bar"
    ∧ buildProcessEnv
        (fun k => if k = "LD_PRELOAD" then some "sys" else none)
        [("LD_PRELOAD", "/tmp/x"), ("FOO", "bar")] "0.1.0" none
        "CLAUDE_CODE_ENTRYPOINT"
      = some "sdk-rust"
    ∧ buildProcessEnv
        (fun k => if k = "LD_PRELOAD" then some "sys" else none)
        [("LD_PRELOAD", "/tmp/x"), ("FOO", "bar")] "0.1.0" none
        "CLAUDE_AGENT_SDK_VERSION"
      = some "0.1.0" := by
  have h := env_sanitization
    (fun k => if k = "LD_PRELOAD" then some "sys" else none)
    [("LD_PRELOAD", "/tmp/x"), ("FOO", "bar")] "0.1.0" (by decide)
  refine ⟨?_, ?_, h.1, h.2.1⟩
  · have := ((h.2.2 "LD_PRELOAD" (by decide) (by decide)).1 (by left; decide))
    simpa using this
  · exact (h.2.2 "FOO" (by decide) (by decide)).2 "bar" (by decide) (by decide)

-- ===========================================================================
-- C10: transport connect idempotence
-- ===========================================================================

/-- Over any sequence of `connect` calls, the number of children spawned is at
most one (zero when a process is already held). -/
theorem connectRun_spawn_bound (bs : List Bool) (st : TransportState) :
    (connectRun st bs).2 ≤ if st.processHeld then 0 else 1 := by
  induction bs generalizing st with
  | nil => simp [connectRun]
  | cons b bs ih =>
      cases hh : st.processHeld
      · cases b
        · have := ih st
          simp [connectRun, connect_impl, hh] at this ⊢
          omega
        · have := ih { processHeld := true, ready := true }
          simp [connectRun, connect_impl, hh] at this ⊢
          omega
      · have := ih st
        simp [connectRun, connect_impl, hh] at this ⊢
        omega

/-- C10.  `connect` on a transport that already holds a child returns success
at once, leaves the state unchanged, and spawns nothing; consequently a
transport spawns at most one child over any sequence of connect calls. -/
theorem connect_idempotent (st : TransportState) (b : Bool)
    (h : st.processHeld = true) :
    connect_impl b st = (.ok (), st, 0)
    ∧ ∀ (st2 : TransportState) (bs : List Bool),
        (connectRun st2 bs).2 ≤ if st2.processHeld then 0 else 1 := by
  constructor
  · simp [connect_impl, h]
  · exact fun st2 bs => connectRun_spawn_bound bs st2

/-- Witness for `connect_idempotent` on a concrete connected transport. -/
theorem connect_idempotent_witness :
    connect_impl true { processHeld := true, ready := true }
      = (.ok (), { processHeld := true, ready := true }, 0)
    ∧ (connectRun { processHeld := false, ready := false } [true, true]).2 ≤ 1 := by
  have h := connect_idempotent { processHeld := true, ready := true } true rfl
  refine ⟨h.1, ?_⟩
  have h2 := h.2 { processHeld := false, ready := false } [true, true]
  simpa using h2

-- ===========================================================================
-- C2: ring buffer invariants
-- ===========================================================================

theorem bufferPush_length_le (msgs : List SerializedMessage)
    (m : SerializedMessage) (h : msgs.length ≤ BUFFER_SIZE) :
    (bufferPush msgs m).length ≤ BUFFER_SIZE := by
  have hB : BUFFER_SIZE = 1000 := rfl
  unfold bufferPush
  by_cases hf : msgs.length = BUFFER_SIZE
  · simp only [if_pos hf, List.length_append, List.length_tail]
    have h1 : ([m] : List SerializedMessage).length = 1 := rfl
    omega
  · simp only [if_neg hf, List.length_append]
    have h1 : ([m] : List SerializedMessage).length = 1 := rfl
    omega

theorem bufferPush_at_capacity (msgs : List SerializedMessage)
    (m : SerializedMessage) (h : msgs.length = BUFFER_SIZE) :
    bufferPush msgs m = msgs.tail ++ [m]
    ∧ (bufferPush msgs m).length = BUFFER_SIZE := by
  have hB : BUFFER_SIZE = 1000 := rfl
  refine ⟨by simp [bufferPush, h], ?_⟩
  simp only [bufferPush, if_pos h, List.length_append, List.length_tail]
  have h1 : ([m] : List SerializedMessage).length = 1 := rfl
  omega

theorem bufferPush_isSuffix (msgs : List SerializedMessage)
    (m : SerializedMessage) : bufferPush msgs m <:+ msgs ++ [m] := by
  unfold bufferPush
  by_cases hf : msgs.length = BUFFER_SIZE
  · simp only [if_pos hf]
    refine ⟨msgs.take 1, ?_⟩
    rw [← List.append_assoc]
    congr 1
    rw [← List.drop_one]
    exact List.take_append_drop 1 msgs
  · simp only [if_neg hf]
    exact List.suffix_refl _

theorem collectorStep_buffer_le (maxTurns : Nat) (s : CollectorState)
    (ev : CollectorEvent) (h : s.messages.length ≤ BUFFER_SIZE) :
    ((collectorStep maxTurns s ev).1).messages.length ≤ BUFFER_SIZE := by
  cases ev with
  | command cmd => cases cmd <;> simpa [collectorStep] using h
  | msgErr => simpa [collectorStep] using h
  | msgOk msg =>
      have hb := bufferPush_length_le s.messages (serializeMessage msg) h
      cases msg with
      | result sub d e n =>
          by_cases hn : n ≥ maxTurns
          · simpa [collectorStep, hn] using hb
          · simpa [collectorStep, hn] using hb
      | user c => simpa [collectorStep] using hb
      | assistant c => simpa [collectorStep] using hb
      | system sub => simpa [collectorStep] using hb
      | streamEvent u => simpa [collectorStep] using hb

theorem collectorRun_buffer_le (maxTurns : Nat) (evs : List CollectorEvent)
    (s : CollectorState) (h : s.messages.length ≤ BUFFER_SIZE) :
    ((collectorRun maxTurns s evs)).messages.length ≤ BUFFER_SIZE := by
  induction evs generalizing s with
  | nil => exact h
  | cons ev evs ih =>
      simp only [collectorRun]
      split
      · exact collectorStep_buffer_le maxTurns s ev h
      · exact ih _ (collectorStep_buffer_le maxTurns s ev h)

/-- C2.  The ring buffer never exceeds `BUFFER_SIZE = 1000` entries (both for
a single insertion and along any collector run); inserting at capacity evicts
the head and leaves the size exactly at capacity; the insertion keeps the
surviving entries in order (the new buffer is a suffix of the old buffer with
the new element appended); and `get_output`, the read operation, leaves the
manager state unchanged. -/
theorem ring_buffer_invariants (msgs : List SerializedMessage)
    (m : SerializedMessage) (maxTurns : Nat) (s : CollectorState)
    (evs : List CollectorEvent) (st : ManagerState) (sessionId : String)
    (offset : Int) (length : Nat)
    (hlen : msgs.length ≤ BUFFER_SIZE) (hs : s.messages.length ≤ BUFFER_SIZE) :
    (bufferPush msgs m).length ≤ BUFFER_SIZE
    ∧ (msgs.length = BUFFER_SIZE →
        bufferPush msgs m = msgs.tail ++ [m]
        ∧ (bufferPush msgs m).length = BUFFER_SIZE)
    ∧ bufferPush msgs m <:+ msgs ++ [m]
    ∧ (collectorRun maxTurns s evs).messages.length ≤ BUFFER_SIZE
    ∧ (AgentManager.get_output st sessionId offset length).2 = st := by
  refine ⟨bufferPush_length_le msgs m hlen,
    fun hf => bufferPush_at_capacity msgs m hf,
    bufferPush_isSuffix msgs m,
    collectorRun_buffer_le maxTurns evs s hs, ?_⟩
  unfold AgentManager.get_output
  cases h1 : mapLookup st.activeSessions sessionId
  · cases h2 : mapLookup st.completedSessions sessionId <;> simp [h1, h2]
  · simp [h1]

/-- Witness for `ring_buffer_invariants` at an empty buffer and a concrete
state. -/
theorem ring_buffer_invariants_witness :
    (bufferPush [] (serializeMessage (.user "a"))).length ≤ BUFFER_SIZE
    ∧ (collectorRun 1 { messages := [], turnCount := 0, isComplete := false }
        [.msgOk (.user "a")]).messages.length ≤ BUFFER_SIZE
    ∧ (AgentManager.get_output
        { activeSessions := [], completedSessions := [] } "s" 0 10).2
      = { activeSessions := [], completedSessions := [] } := by
  have h := ring_buffer_invariants [] (serializeMessage (.user "a")) 1
    { messages := [], turnCount := 0, isComplete := false }
    [.msgOk (.user "a")]
    { activeSessions := [], completedSessions := [] } "s" 0 10
    (by decide) (by decide)
  exact ⟨h.1, h.2.2.2.1, h.2.2.2.2⟩

-- ===========================================================================
-- C4: supervisor Result / error handling
-- ===========================================================================

/-- C4.  On a Result message the supervisor loop stores the frame's
`num_turns` into the shared turn counter, and it marks the session complete
and breaks exactly when `num_turns ≥ max_turns`; on a stream error it marks
the session complete and breaks. -/
theorem supervisor_result_error_handling (maxTurns : Nat) (subtype : String)
    (durationMs : Nat) (isError : Bool) (numTurns : Nat) (s : CollectorState)
    (h : s.isComplete = false) :
    ((collectorStep maxTurns s
        (.msgOk (.result subtype durationMs isError numTurns))).1.turnCount
      = numTurns)
    ∧ ((collectorStep maxTurns s
        (.msgOk (.result subtype durationMs isError numTurns))).1.isComplete
          = true
        ↔ numTurns ≥ maxTurns)
    ∧ ((collectorStep maxTurns s
        (.msgOk (.result subtype durationMs isError numTurns))).2 = true
        ↔ numTurns ≥ maxTurns)
    ∧ (collectorStep maxTurns s .msgErr).1.isComplete = true
    ∧ (collectorStep maxTurns s .msgErr).2 = true := by
  by_cases hn : numTurns ≥ maxTurns <;> simp [collectorStep, hn, h]

/-- Witness for `supervisor_result_error_handling` at a fresh session with
`max_turns = 1` receiving a Result frame reporting one turn. -/
theorem supervisor_result_error_handling_witness :
    ((collectorStep 1 { messages := [], turnCount := 0, isComplete := false }
        (.msgOk (.result "success" 5 false 1))).1.turnCount = 1)
    ∧ ((collectorStep 1 { messages := [], turnCount := 0, isComplete := false }
        (.msgOk (.result "success" 5 false 1))).1.isComplete = true)
    ∧ ((collectorStep 1 { messages := [], turnCount := 0, isComplete := false }
        (.msgOk (.result "success" 5 false 1))).2 = true) := by
  have h := supervisor_result_error_handling 1 "success" 5 false 1
    { messages := [], turnCount := 0, isComplete := false } rfl
  exact ⟨h.1, h.2.1.mpr (by decide), h.2.2.1.mpr (by decide)⟩

-- ===========================================================================
-- C5: send_message rejection
-- ===========================================================================

/-- C5.  `send_message` returns a SessionComplete error and posts nothing on
the session's command channel whenever the session's complete flag is set or
its turn count has reached `max_turns`. -/
theorem send_message_rejects_complete (st : ManagerState)
    (sessionId prompt : String) (session : AgentSessionInfo)
    (hFind : mapLookup st.activeSessions sessionId = some session)
    (hDone : session.isComplete = true
        ∨ session.turnCount ≥ session.maxTurns) :
    AgentManager.send_message st sessionId prompt
        = (.error (.sessionComplete sessionId), []) := by
  rcases hDone with hc | ht
  · simp [AgentManager.send_message, hFind, hc]
  · by_cases hc : session.isComplete
    · simp [AgentManager.send_message, hFind, hc]
    · simp [AgentManager.send_message, hFind, hc, ht]

/-- Witness for `send_message_rejects_complete`: with `max_turns = 1`, after
the first Result frame reports one turn the next SEND fails with
SessionComplete. -/
theorem send_message_rejects_complete_witness :
    mapLookup (applyCollectorEvent
      { activeSessions :=
          [("s", { label := "w", messages := [], turnCount := 0,
                   maxTurns := 1, isComplete := false })],
        completedSessions := [] } "s"
      (.msgOk (.result "success" 5 false 1))).activeSessions "s"
      = some { label := "w",
               messages := [serializeMessage (.result "success" 5 false 1)],
               turnCount := 1, maxTurns := 1, isComplete := true }
    ∧ AgentManager.send_message (applyCollectorEvent
        { activeSessions :=
            [("s", { label := "w", messages := [], turnCount := 0,
                     maxTurns := 1, isComplete := false })],
          completedSessions := [] } "s"
        (.msgOk (.result "success" 5 false 1))) "s" "again"
        = (.error (.sessionComplete "s"), []) := by
  have hFind : mapLookup (applyCollectorEvent
      { activeSessions :=
          [("s", { label := "w", messages := [], turnCount := 0,
                   maxTurns := 1, isComplete := false })],
        completedSessions := [] } "s"
      (.msgOk (.result "success" 5 false 1))).activeSessions "s"
      = some { label := "w",
               messages := [serializeMessage (.result "success" 5 false 1)],
               turnCount := 1, maxTurns := 1, isComplete := true } := by decide
  refine ⟨hFind, ?_⟩
  exact send_message_rejects_complete _ "s" "again" _ hFind (Or.inl rfl)

-- ===========================================================================
-- C6: pool transition
-- ===========================================================================

/-- C6 counterexample.  A session that reaches `max_turns` (the supervisor
sets its complete flag and exits) is NOT moved to the completed pool: with
`max_turns = 1`, after the Result frame reporting one turn the session id is
still in the active pool, marked complete there, and absent from the
completed pool — so reaching `max_turns` does not trigger the move the claim
describes. -/
theorem session_pool_move_counterexample :
    ((mapLookup (applyCollectorEvent
        { activeSessions :=
            [("s", { label := "w", messages := [], turnCount := 0,
                     maxTurns := 1, isComplete := false })],
          completedSessions := [] } "s"
        (.msgOk (.result "success" 5 false 1))).activeSessions "s").map
          AgentSessionInfo.isComplete = some true)
    ∧ mapLookup (applyCollectorEvent
        { activeSessions :=
            [("s", { label := "w", messages := [], turnCount := 0,
                     maxTurns := 1, isComplete := false })],
          completedSessions := [] } "s"
        (.msgOk (.result "success" 5 false 1))).completedSessions "s"
      = none := by decide

/-- C6 amended.  The move to the completed pool happens only through
`terminate_session` (explicit KILL, connection cleanup, or shutdown): a
successful `terminate_session` removes the id from the active pool and
inserts its snapshot into the completed pool — afterwards the id is in
exactly one pool, never both — and the move happens exactly once: a second
`terminate_session` returns SessionNotFound and leaves the state unchanged.
(Reaching `max_turns`, a terminal result frame, or an I/O failure only set
the session's complete flag; the session stays in the active pool until
terminated.) -/
theorem terminate_session_moves_once (st : ManagerState) (sessionId : String)
    (session : AgentSessionInfo)
    (hFind : mapLookup st.activeSessions sessionId = some session) :
    (AgentManager.terminate_session st sessionId).1
        = .ok { sessionId := sessionId, success := true,
                finalTurnCount := session.turnCount,
                totalMessages := session.messages.length }
    ∧ mapLookup
        (AgentManager.terminate_session st sessionId).2.activeSessions
        sessionId = none
    ∧ mapLookup
        (AgentManager.terminate_session st sessionId).2.completedSessions
        sessionId
      = some { label := session.label, messages := session.messages,
               finalTurnCount := session.turnCount }
    ∧ AgentManager.terminate_session
        (AgentManager.terminate_session st sessionId).2 sessionId
      = (.error (.sessionNotFound sessionId),
         (AgentManager.terminate_session st sessionId).2) := by
  have hstep : AgentManager.terminate_session st sessionId
      = (.ok { sessionId := sessionId, success := true,
               finalTurnCount := session.turnCount,
               totalMessages := session.messages.length },
         { activeSessions := st.activeSessions.filter
             fun kv => kv.1 ≠ sessionId,
           completedSessions := mapInsert st.completedSessions sessionId
             { label := session.label, messages := session.messages,
               finalTurnCount := session.turnCount } }) := by
    simp [AgentManager.terminate_session, mapRemove, hFind]
  rw [hstep]
  refine ⟨rfl, ?_, ?_, ?_⟩
  · exact mapLookup_self_none st.activeSessions sessionId
  · exact mapLookup_insert_self st.completedSessions sessionId _
  · have hnone : mapLookup
        (st.activeSessions.filter fun kv => kv.1 ≠ sessionId) sessionId
        = none := mapLookup_self_none st.activeSessions sessionId
    simp only [ne_eq, decide_not] at hnone
    simp [AgentManager.terminate_session, mapRemove, hnone]

/-- Witness for `terminate_session_moves_once` on a one-session manager. -/
theorem terminate_session_moves_once_witness :
    (AgentManager.terminate_session
      { activeSessions :=
          [("s", { label := "w", messages := [], turnCount := 3,
                   maxTurns := 5, isComplete := false })],
        completedSessions := [] } "s").1
      = .ok { sessionId := "s", success := true, finalTurnCount := 3,
              totalMessages := 0 }
    ∧ mapLookup (AgentManager.terminate_session
        { activeSessions :=
            [("s", { label := "w", messages := [], turnCount := 3,
                     maxTurns := 5, isComplete := false })],
          completedSessions := [] } "s").2.activeSessions "s" = none := by
  have h := terminate_session_moves_once
    { activeSessions :=
        [("s", { label := "w", messages := [], turnCount := 3,
                 maxTurns := 5, isComplete := false })],
      completedSessions := [] } "s"
    { label := "w", messages := [], turnCount := 3,
      maxTurns := 5, isComplete := false } (by decide)
  exact ⟨h.1, h.2.1⟩

-- ===========================================================================
-- C7: turn-count monotonicity
-- ===========================================================================

/-- C7 counterexample.  The observed `turn_count` is assigned directly from
each Result frame's `num_turns`, so a child reporting 2 then 1 makes the
observed sequence decrease; and within the buffer, record `turn` fields are
`num_turns` only on result records and 0 on all others, so a result record
followed by an assistant record gives turns `[1, 0]` — not non-decreasing in
insertion order. -/
theorem turn_monotonicity_counterexample :
    ¬ List.Chain' (· ≤ ·)
        (collectorTurnTrace 10
          { messages := [], turnCount := 0, isComplete := false }
          [.msgOk (.result "success" 5 false 2),
           .msgOk (.result "success" 5 false 1)])
    ∧ ¬ List.Chain' (· ≤ ·)
        ((collectorRun 2
          { messages := [], turnCount := 0, isComplete := false }
          [.msgOk (.result "success" 5 false 1),
           .msgOk (.assistant "hi")]).messages.map SerializedMessage.turn) := by
  constructor
  · have ht : collectorTurnTrace 10
        { messages := [], turnCount := 0, isComplete := false }
        [.msgOk (.result "success" 5 false 2),
         .msgOk (.result "success" 5 false 1)] = [2, 1] := by decide
    rw [ht]
    intro hc
    have h21 := (List.chain'_cons.mp hc).1
    omega
  · have hm : (collectorRun 2
        { messages := [], turnCount := 0, isComplete := false }
        [.msgOk (.result "success" 5 false 1),
         .msgOk (.assistant "hi")]).messages.map SerializedMessage.turn
        = [1, 0] := by decide
    rw [hm]
    intro hc
    have h10 := (List.chain'_cons.mp hc).1
    omega

/-- C7 amended.  The observed `turn_count` equals the `num_turns` of the most
recent Result frame, so it is monotonically non-decreasing provided the
child's Result frames report a non-decreasing `num_turns` sequence starting
no lower than the current count (non-result buffer records carry turn 0, so
the unconditional buffer-order claim fails, per the counterexample). -/
theorem turn_trace_monotone (maxTurns : Nat) (s : CollectorState)
    (evs : List CollectorEvent)
    (h : List.Chain' (· ≤ ·) (s.turnCount :: resultTurns evs)) :
    List.Chain' (· ≤ ·) (s.turnCount :: collectorTurnTrace maxTurns s evs) := by
  induction evs generalizing s with
  | nil => simp [collectorTurnTrace]
  | cons ev evs ih =>
      cases ev with
      | command cmd =>
          cases cmd with
          | sendMessage p =>
              have h' := ih s (by simpa [resultTurns] using h)
              simp only [collectorTurnTrace, collectorStep]
              exact List.chain'_cons.mpr ⟨le_refl _, h'⟩
          | shutdown =>
              simp only [collectorTurnTrace, collectorStep]
              exact List.chain'_cons.mpr ⟨le_refl _, List.chain'_singleton _⟩
      | msgErr =>
          simp only [collectorTurnTrace, collectorStep]
          exact List.chain'_cons.mpr ⟨le_refl _, List.chain'_singleton _⟩
      | msgOk msg =>
          cases msg with
          | result subtype durationMs isError numTurns =>
              have hres : resultTurns
                  (CollectorEvent.msgOk
                    (.result subtype durationMs isError numTurns) :: evs)
                  = numTurns :: resultTurns evs := by
                simp [resultTurns]
              rw [hres] at h
              have h1 : s.turnCount ≤ numTurns := (List.chain'_cons.mp h).1
              have h2 : List.Chain' (· ≤ ·) (numTurns :: resultTurns evs) :=
                (List.chain'_cons.mp h).2
              by_cases hn : numTurns ≥ maxTurns
              · simp only [collectorTurnTrace, collectorStep, hn, if_true,
                  if_pos]
                exact List.chain'_cons.mpr ⟨h1, List.chain'_singleton _⟩
              · have h' := ih
                  { messages :=
                      bufferPush s.messages (serializeMessage
                        (.result subtype durationMs isError numTurns)),
                    turnCount := numTurns, isComplete := s.isComplete }
                  (by simpa using h2)
                simp only [collectorTurnTrace, collectorStep, hn, if_false,
                  if_neg]
                exact List.chain'_cons.mpr ⟨h1, by simpa using h'⟩
          | user c =>
              have h' := ih
                { messages := bufferPush s.messages (serializeMessage (.user c)),
                  turnCount := s.turnCount, isComplete := s.isComplete }
                (by simpa [resultTurns] using h)
              simp only [collectorTurnTrace, collectorStep]
              exact List.chain'_cons.mpr ⟨le_refl _, by simpa using h'⟩
          | assistant c =>
              have h' := ih
                { messages :=
                    bufferPush s.messages (serializeMessage (.assistant c)),
                  turnCount := s.turnCount, isComplete := s.isComplete }
                (by simpa [resultTurns] using h)
              simp only [collectorTurnTrace, collectorStep]
              exact List.chain'_cons.mpr ⟨le_refl _, by simpa using h'⟩
          | system sub =>
              have h' := ih
                { messages :=
                    bufferPush s.messages (serializeMessage (.system sub)),
                  turnCount := s.turnCount, isComplete := s.isComplete }
                (by simpa [resultTurns] using h)
              simp only [collectorTurnTrace, collectorStep]
              exact List.chain'_cons.mpr ⟨le_refl _, by simpa using h'⟩
          | streamEvent u =>
              have h' := ih
                { messages :=
                    bufferPush s.messages (serializeMessage (.streamEvent u)),
                  turnCount := s.turnCount, isComplete := s.isComplete }
                (by simpa [resultTurns] using h)
              simp only [collectorTurnTrace, collectorStep]
              exact List.chain'_cons.mpr ⟨le_refl _, by simpa using h'⟩

/-- Witness for `turn_trace_monotone` on a child reporting turns 1 then 2. -/
theorem turn_trace_monotone_witness :
    List.Chain' (· ≤ ·)
      ((0 : Nat) :: collectorTurnTrace 10
        { messages := [], turnCount := 0, isComplete := false }
        [.msgOk (.result "success" 5 false 1), .msgOk (.assistant "hi"),
         .msgOk (.result "success" 5 false 2)]) := by
  exact turn_trace_monotone 10
    { messages := [], turnCount := 0, isComplete := false }
    [.msgOk (.result "success" 5 false 1), .msgOk (.assistant "hi"),
     .msgOk (.result "success" 5 false 2)] (by
      show List.Chain' (· ≤ ·) ((0 : Nat) :: resultTurns
        [.msgOk (.result "success" 5 false 1), .msgOk (.assistant "hi"),
         .msgOk (.result "success" 5 false 2)])
      have hh : (0 : Nat) :: resultTurns
          [.msgOk (.result "success" 5 false 1), .msgOk (.assistant "hi"),
           .msgOk (.result "success" 5 false 2)] = [0, 1, 2] := by decide
      rw [hh]
      exact List.chain'_cons.mpr ⟨by omega,
        List.chain'_cons.mpr ⟨by omega, List.chain'_singleton _⟩⟩)

-- ===========================================================================
-- C1: connection cleanup
-- ===========================================================================

theorem mapLookup_cons_ne {κ α : Type} [DecidableEq κ] (kv : κ × α)
    (m : List (κ × α)) (x : κ) (h : ¬ kv.1 = x) :
    mapLookup (kv :: m) x = mapLookup m x := by
  unfold mapLookup
  rw [List.find?_cons_of_neg _ (by simp [h])]

theorem mapLookup_cons_self {κ α : Type} [DecidableEq κ] (kv : κ × α)
    (m : List (κ × α)) : mapLookup (kv :: m) kv.1 = some kv.2 := by
  unfold mapLookup
  rw [List.find?_cons_of_pos _ (by simp)]
  rfl

/-- The removal loop of `cleanup_connection`, folded over a duplicate-free key
list: the final map is the original with those keys filtered out, and the
attempted session ids are the lookups of those keys in the original map. -/
theorem cleanupStep_foldl (ks : List (String × Nat)) (m : AgentMap)
    (mgr : ManagerState) (acc : List String) (hk : ks.Nodup) :
    (ks.foldl cleanupStep (m, mgr, acc)).1
        = m.filter (fun kv => kv.1 ∉ ks)
    ∧ (ks.foldl cleanupStep (m, mgr, acc)).2.2
        = acc ++ ks.filterMap (mapLookup m) := by
  induction ks generalizing m mgr acc with
  | nil =>
      constructor
      · simp
      · simp
  | cons k ks ih =>
      obtain ⟨hk1, hk2⟩ := List.nodup_cons.mp hk
      rw [List.foldl_cons]
      have hcongr : ks.filterMap (mapLookup (m.filter fun kv => kv.1 ≠ k))
          = ks.filterMap (mapLookup m) := by
        apply List.filterMap_congr
        intro x hx
        exact mapLookup_filter_ne m x k (fun hc => hk1 (hc ▸ hx))
      have hpred : ∀ kv : (String × Nat) × String, kv ∈ m →
          ((decide (kv.1 ∉ ks)) && (decide (kv.1 ≠ k)))
            = decide (kv.1 ∉ k :: ks) := by
        intro kv _
        by_cases h1 : kv.1 = k <;> by_cases h2 : kv.1 ∈ ks <;> simp [h1, h2]
      cases hl : mapLookup m k with
      | some sid =>
          have hstep : cleanupStep (m, mgr, acc) k
              = (m.filter fun kv => kv.1 ≠ k,
                 (AgentManager.terminate_session mgr sid).2, acc ++ [sid]) := by
            simp [cleanupStep, mapRemove, hl]
          rw [hstep]
          obtain ⟨ihA, ihB⟩ := ih (m.filter fun kv => kv.1 ≠ k)
            (AgentManager.terminate_session mgr sid).2 (acc ++ [sid]) hk2
          constructor
          · rw [ihA, List.filter_filter]
            exact List.filter_congr hpred
          · rw [ihB, hcongr]
            have hcons : (k :: ks).filterMap (mapLookup m)
                = sid :: ks.filterMap (mapLookup m) := by
              simp [List.filterMap_cons, hl]
            rw [hcons]
            simp
      | none =>
          have hstep : cleanupStep (m, mgr, acc) k
              = (m.filter fun kv => kv.1 ≠ k, mgr, acc) := by
            simp [cleanupStep, mapRemove, hl]
          rw [hstep]
          obtain ⟨ihA, ihB⟩ := ih (m.filter fun kv => kv.1 ≠ k) mgr acc hk2
          constructor
          · rw [ihA, List.filter_filter]
            exact List.filter_congr hpred
          · rw [ihB, hcongr]
            have hcons : (k :: ks).filterMap (mapLookup m)
                = ks.filterMap (mapLookup m) := by
              simp [List.filterMap_cons, hl]
            rw [hcons]

/-- Looking up, in a duplicate-free map, the keys selected by a predicate
yields exactly the values of the entries selected by that predicate. -/
theorem keys_filterMap_lookup (m : AgentMap) (p : (String × Nat) → Bool)
    (hN : (m.map Prod.fst).Nodup) :
    ((m.map Prod.fst).filter p).filterMap (mapLookup m)
        = (m.filter fun kv => p kv.1).map Prod.snd := by
  induction m with
  | nil => rfl
  | cons kv m ih =>
      rw [List.map_cons] at hN
      obtain ⟨h1, h2⟩ := List.nodup_cons.mp hN
      have htail : ((m.map Prod.fst).filter p).filterMap
          (mapLookup (kv :: m))
          = ((m.map Prod.fst).filter p).filterMap (mapLookup m) := by
        apply List.filterMap_congr
        intro x hx
        have hx2 : x ∈ m.map Prod.fst := List.mem_of_mem_filter hx
        exact mapLookup_cons_ne kv m x (fun hc => h1 (hc ▸ hx2))
      cases hp : p kv.1 with
      | true =>
          rw [List.map_cons, List.filter_cons_of_pos (by rw [hp]),
            List.filter_cons_of_pos (by rw [hp])]
          rw [List.filterMap_cons, mapLookup_cons_self kv m]
          rw [htail, ih h2, List.map_cons]
      | false =>
          rw [List.map_cons, List.filter_cons_of_neg (by rw [hp]; simp),
            List.filter_cons_of_neg (by rw [hp]; simp)]
          rw [htail, ih h2]

/-- C1.  `cleanup_connection(c)` removes exactly the registry entries whose
key's first component is `c` (entries of other connections are untouched),
attempts `terminate_session` for every session id that was registered under
`c` (in sweep order), returns the number of entries that were registered
under `c`, and individual termination outcomes — which live in the manager
state — have no effect on the sweep: the resulting registry map, attempt
list, and count are the same for every manager state. -/
theorem cleanup_connection_spec (agents : AgentMap) (mgr : ManagerState)
    (connectionId : String) (hN : (agents.map Prod.fst).Nodup) :
    (AgentRegistry.cleanup_connection agents mgr connectionId).1
        = agents.filter (fun kv => kv.1.1 ≠ connectionId)
    ∧ (AgentRegistry.cleanup_connection agents mgr connectionId).2.2.1
        = (agents.filter fun kv => kv.1.1 = connectionId).map Prod.snd
    ∧ (AgentRegistry.cleanup_connection agents mgr connectionId).2.2.2
        = (agents.filter fun kv => kv.1.1 = connectionId).length
    ∧ (∀ mgr2 : ManagerState,
        (AgentRegistry.cleanup_connection agents mgr2 connectionId).1
          = (AgentRegistry.cleanup_connection agents mgr connectionId).1
        ∧ (AgentRegistry.cleanup_connection agents mgr2 connectionId).2.2
          = (AgentRegistry.cleanup_connection agents mgr connectionId).2.2) := by
  have hks : ((agents.map Prod.fst).filter
      fun k => k.1 = connectionId).Nodup := hN.filter _
  have hA : ∀ mgr' : ManagerState,
      (AgentRegistry.cleanup_connection agents mgr' connectionId).1
        = agents.filter (fun kv => kv.1.1 ≠ connectionId) := by
    intro mgr'
    have hfold := (cleanupStep_foldl
      ((agents.map Prod.fst).filter fun k => k.1 = connectionId)
      agents mgr' [] hks).1
    show (((agents.map Prod.fst).filter
        fun k => k.1 = connectionId).foldl cleanupStep
        (agents, mgr', [])).1 = _
    rw [hfold]
    apply List.filter_congr
    intro kv hkv
    have hmem : kv.1 ∈ agents.map Prod.fst := List.mem_map_of_mem Prod.fst hkv
    by_cases hc : kv.1.1 = connectionId
    · simp [List.mem_filter, hmem, hc]
    · simp [List.mem_filter, hc]
  have hB : ∀ mgr' : ManagerState,
      (AgentRegistry.cleanup_connection agents mgr' connectionId).2.2.1
        = (agents.filter fun kv => kv.1.1 = connectionId).map Prod.snd := by
    intro mgr'
    have hfold := (cleanupStep_foldl
      ((agents.map Prod.fst).filter fun k => k.1 = connectionId)
      agents mgr' [] hks).2
    show (((agents.map Prod.fst).filter
        fun k => k.1 = connectionId).foldl cleanupStep
        (agents, mgr', [])).2.2 = _
    rw [hfold]
    rw [List.nil_append]
    exact keys_filterMap_lookup agents (fun k => k.1 = connectionId) hN
  have hC : ∀ mgr' : ManagerState,
      (AgentRegistry.cleanup_connection agents mgr' connectionId).2.2.2
        = (agents.filter fun kv => kv.1.1 = connectionId).length := by
    intro mgr'
    show ((agents.map Prod.fst).filter
        fun k => k.1 = connectionId).length = _
    rw [List.filter_map, List.length_map]
    congr 1
  refine ⟨hA mgr, hB mgr, hC mgr, ?_⟩
  intro mgr2
  refine ⟨(hA mgr2).trans (hA mgr).symm, ?_⟩
  have hsplit : ∀ mgr' : ManagerState,
      (AgentRegistry.cleanup_connection agents mgr' connectionId).2.2
        = ((AgentRegistry.cleanup_connection agents mgr' connectionId).2.2.1,
           (AgentRegistry.cleanup_connection agents mgr' connectionId).2.2.2) :=
    fun _ => rfl
  rw [hsplit mgr2, hsplit mgr, hB mgr2, hB mgr, hC mgr2, hC mgr]

/-- Witness for `cleanup_connection_spec`: connection `c1` holds handles 0
and 1, connection `c2` holds handle 0; cleaning up `c1` removes both of its
entries, attempts termination of both sessions, returns 2, and leaves the
`c2` entry in place. -/
theorem cleanup_connection_spec_witness :
    (AgentRegistry.cleanup_connection
      [(("c1", 0), "sa"), (("c1", 1), "sb"), (("c2", 0), "sc")]
      { activeSessions := [], completedSessions := [] } "c1").1
      = [(("c2", 0), "sc")]
    ∧ (AgentRegistry.cleanup_connection
        [(("c1", 0), "sa"), (("c1", 1), "sb"), (("c2", 0), "sc")]
        { activeSessions := [], completedSessions := [] } "c1").2.2.1
      = ["sa", "sb"]
    ∧ (AgentRegistry.cleanup_connection
        [(("c1", 0), "sa"), (("c1", 1), "sb"), (("c2", 0), "sc")]
        { activeSessions := [], completedSessions := [] } "c1").2.2.2
      = 2 := by
  have h := cleanup_connection_spec
    [(("c1", 0), "sa"), (("c1", 1), "sb"), (("c2", 0), "sc")]
    { activeSessions := [], completedSessions := [] } "c1" (by decide)
  refine ⟨?_, ?_, ?_⟩
  · rw [h.1]; decide
  · rw [h.2.1]; decide
  · rw [h.2.2.1]; decide
